import Mathlib

/-!
Verification development for the Tumkwe Invest data-collection core
(entity model, validator, cache/store, collection manager, UI components).

The repository snapshot contains the architecture documents, READMEs and
executed notebooks, but the Python modules they describe
(`tumkwe_invest/datacollection/models.py`, `validation.py`,
`collector_manager.py`, `tumkwe_invest/ui/components.py`) are not part of
the snapshot.  Every definition below is therefore modelled from the
specification documents, as indicated by its doc comment.
-/

namespace Tumkwe

/-- Modelled from the spec: `models.py` (StockPrice) is missing from the
snapshot.  A price bar carries symbol, trading date, open/high/low/close and
volume.  Dates are day ordinals; prices are integers (a fixed currency
scale), volume an integer so that the "volume negative" rule is expressible. -/
structure StockPriceBar where
  symbol : String
  date : Nat
  openPrice : Int
  high : Int
  low : Int
  close : Int
  volume : Int
deriving DecidableEq, Repr

/-- Modelled from the spec: severity of a validation finding
(info / warning / error). -/
inductive Severity where
  | info
  | warning
  | error
deriving DecidableEq, Repr

/-- Modelled from the spec: `validation.py` is missing from the snapshot.
A finding references the entity it is about, carries a severity, a rule
name and a human-readable message. -/
structure ValidationFinding where
  ref : StockPriceBar
  severity : Severity
  rule : String
  message : String
deriving DecidableEq, Repr

/-- A bar is structurally invalid when `high < low`, open or close fall
outside `[low, high]`, or volume is negative (spec §4.2, price-bar rules). -/
def barStructurallyInvalid (b : StockPriceBar) : Bool :=
  decide (b.high < b.low) || decide (b.openPrice < b.low) ||
  decide (b.high < b.openPrice) || decide (b.close < b.low) ||
  decide (b.high < b.close) || decide (b.volume < 0)

/-- Outlier rule (spec §4.2): the return relative to the previous bar
exceeds ±50%, i.e. `2·|close − prevClose| > |prevClose|`. -/
def outlierMove (prev b : StockPriceBar) : Bool :=
  decide ((prev.close : Int).natAbs < 2 * (b.close - prev.close).natAbs)

/-- Warning findings for outlier moves along the batch, seeded with the
last previously accepted bar when history is available. -/
def outlierFindings : Option StockPriceBar → List StockPriceBar → List ValidationFinding
  | _, [] => []
  | none, b :: rest => outlierFindings (some b) rest
  | some p, b :: rest =>
      (if outlierMove p b then
        [{ ref := b, severity := Severity.warning, rule := "outlier",
           message := "single-day move exceeds threshold" }]
      else []) ++ outlierFindings (some b) rest

/-- Modelled from the spec: `validate(batch, history)` from `validation.py`
(missing from the snapshot).  Structurally invalid bars receive an
error-severity finding; outlier moves receive a warning-severity finding.
No entity is dropped — every failing entity is returned tagged. -/
def validate (batch : List StockPriceBar) (history : List StockPriceBar) :
    List ValidationFinding :=
  batch.filterMap (fun b =>
    if barStructurallyInvalid b then
      some { ref := b, severity := Severity.error, rule := "invalid",
             message := "high/low/open/close/volume out of range" }
    else none)
  ++ outlierFindings history.getLast? batch

/-- A bar carries an error-severity finding in `fs`. -/
def hasErrorFinding (fs : List ValidationFinding) (b : StockPriceBar) : Bool :=
  fs.any fun f => decide (f.ref = b ∧ f.severity = Severity.error)

/-- Modelled from the spec: the data kinds whose storage discipline §4.3
specifies — time-series kinds merge by natural key, singleton kinds
replace wholesale. -/
inductive DataKind where
  | prices
  | statements
  | profile
deriving DecidableEq, Repr

/-- Time-series kinds (prices, statements) merge by natural key;
the singleton kind (profile) replaces wholesale (spec §4.3). -/
def DataKind.isTimeSeries : DataKind → Bool
  | .prices => true
  | .statements => true
  | .profile => false

/-- Modelled from the spec: the Cache/Store's durable state, keyed by
(symbol, data-kind).  `none` means the key was never collected. -/
def Store : Type := String → DataKind → Option (List StockPriceBar)

/-- The empty store: nothing ever collected. -/
def Store.empty : Store := fun _ _ => none

/-- Point update of the store at one (symbol, data-kind) key. -/
def Store.update (st : Store) (sym : String) (k : DataKind)
    (v : List StockPriceBar) : Store :=
  fun s' k' => if s' = sym ∧ k' = k then some v else st s' k'

/-- Merge a new sub-batch into an existing series by natural key (the
trading date): a new bar replaces the old bar with the same date, all
other old bars are kept (spec §4.3, merge-by-natural-key). -/
def mergeBars (old new : List StockPriceBar) : List StockPriceBar :=
  old.filter (fun b => !(new.any fun n => decide (n.date = b.date))) ++ new

/-- Outcome of a store commit: all entities passed / a mix passed /
nothing passed. -/
inductive Outcome where
  | succeeded
  | partiallySucceeded
  | failed
deriving DecidableEq, Repr

/-- Result of `put`: the new store, the outcome, and the rejected
(error-severity) entities, reported back rather than stored. -/
structure PutResult where
  store : Store
  outcome : Outcome
  rejected : List StockPriceBar

/-- Modelled from the spec: `put(symbol, data_kind, batch, findings)` of the
Cache/Store (missing from the snapshot).  Entities carrying an
error-severity finding are excluded; if the batch is non-empty and nothing
passes, nothing is committed and the outcome is a failure; otherwise the
passing subset is committed — merged by natural key for time-series kinds,
replacing wholesale for singleton kinds — and the rejected remainder is
reported. -/
def put (st : Store) (sym : String) (k : DataKind) (batch : List StockPriceBar)
    (findings : List ValidationFinding) : PutResult :=
  let rejected := batch.filter fun b => hasErrorFinding findings b
  let passing := batch.filter fun b => !(hasErrorFinding findings b)
  if passing.isEmpty && !batch.isEmpty then
    { store := st, outcome := Outcome.failed, rejected := rejected }
  else
    let old := (st sym k).getD []
    let series := if k.isTimeSeries then mergeBars old passing else passing
    { store := st.update sym k series,
      outcome := if rejected.isEmpty then Outcome.succeeded
                 else Outcome.partiallySucceeded,
      rejected := rejected }

/-- Store lookup error. -/
inductive StoreError where
  | notFound
deriving DecidableEq, Repr

/-- Modelled from the spec: `get_latest(symbol, data_kind)` — fails with
`NotFound` if the key was never collected, otherwise returns the committed
batch. -/
def getLatest (st : Store) (sym : String) (k : DataKind) :
    Except StoreError (List StockPriceBar) :=
  match st sym k with
  | none => Except.error StoreError.notFound
  | some l => Except.ok l

/-- Modelled from the spec: errors of the Source Adapter boundary (§6):
`SourceUnavailable` is transient (eligible for backoff), `SymbolNotFound`
is permanent for that symbol. -/
inductive AdapterError where
  | sourceUnavailable
  | symbolNotFound
deriving DecidableEq, Repr

/-- Result of an adapter fetch: a batch of raw entities, or an error. -/
inductive FetchResult where
  | ok (batch : List StockPriceBar)
  | err (e : AdapterError)

/-- Modelled from the spec: the Source Adapter interface
`fetch(symbol, data_kind, window)` (§6), with the window left implicit. -/
def Adapter : Type := String → DataKind → FetchResult

/-- Modelled from the spec: `CollectionTask` (§3) — a (symbol, data-kind)
pair with its configured refresh interval, the backoff-adjusted effective
interval, last-run timestamp, next-due timestamp, last outcome and the
count of consecutive hard failures. -/
structure CollectionTask where
  symbol : String
  dataKind : DataKind
  interval : Nat
  effInterval : Nat
  lastRun : Option Nat
  nextDue : Nat
  lastOutcome : Option Outcome
  consecFailures : Nat
deriving DecidableEq, Repr

/-- Modelled from the spec: Manager configuration — the consecutive-failure
threshold for backoff (default 3) and the ceiling on the effective
interval (§4.4). -/
structure ManagerConfig where
  backoffThreshold : Nat
  intervalCeiling : Nat
deriving DecidableEq, Repr

/-- Modelled from the spec: the Collection Manager's state — its task
registry and the store it commits to. -/
structure ManagerState where
  config : ManagerConfig
  tasks : List CollectionTask
  store : Store

/-- Per-task outcome recorded in a run report. -/
inductive RunOutcome where
  | succeeded
  | partiallySucceeded
  | failedValidation
  | failedAdapter (e : AdapterError)
deriving DecidableEq, Repr

/-- One entry of the run report returned by `run_due_tasks` (§6,
reporting boundary): symbol, data-kind, outcome and the findings. -/
structure ReportEntry where
  symbol : String
  dataKind : DataKind
  outcome : RunOutcome
  findings : List ValidationFinding
deriving DecidableEq, Repr

/-- Backoff step on a hard failure (spec §4.4): the consecutive-failure
count is incremented; once it reaches the threshold the effective interval
doubles, capped at the configured ceiling. -/
def applyBackoff (cfg : ManagerConfig) (t : CollectionTask) : Nat × Nat :=
  let cf := t.consecFailures + 1
  (cf, if cfg.backoffThreshold ≤ cf then min (t.effInterval * 2) cfg.intervalCeiling
       else t.effInterval)

/-- Modelled from the spec: one task execution
(fetch → validate → store, §4.4) — missing `collector_manager.py`.
Adapter failures are captured in the report entry, never propagated; the
store is untouched on a hard failure; `next-due = now + effective interval`
regardless of outcome; a hard `SourceUnavailable` failure advances the
backoff state, any completed fetch resets the consecutive-failure count,
and a successful or partially successful commit resets the effective
interval to the configured one. -/
def executeTask (env : Adapter) (cfg : ManagerConfig) (now : Nat) (st : Store)
    (t : CollectionTask) : CollectionTask × Store × ReportEntry :=
  match env t.symbol t.dataKind with
  | FetchResult.err AdapterError.sourceUnavailable =>
      let p := applyBackoff cfg t
      ({ t with lastRun := some now, nextDue := now + p.2,
                consecFailures := p.1, effInterval := p.2,
                lastOutcome := some Outcome.failed },
       st,
       { symbol := t.symbol, dataKind := t.dataKind,
         outcome := RunOutcome.failedAdapter AdapterError.sourceUnavailable,
         findings := [] })
  | FetchResult.err AdapterError.symbolNotFound =>
      ({ t with lastRun := some now, nextDue := now + t.effInterval,
                lastOutcome := some Outcome.failed },
       st,
       { symbol := t.symbol, dataKind := t.dataKind,
         outcome := RunOutcome.failedAdapter AdapterError.symbolNotFound,
         findings := [] })
  | FetchResult.ok batch =>
      let history := (st t.symbol t.dataKind).getD []
      let findings := validate batch history
      let r := put st t.symbol t.dataKind batch findings
      match r.outcome with
      | Outcome.failed =>
          ({ t with lastRun := some now, nextDue := now + t.effInterval,
                    consecFailures := 0,
                    lastOutcome := some Outcome.failed },
           r.store,
           { symbol := t.symbol, dataKind := t.dataKind,
             outcome := RunOutcome.failedValidation, findings := findings })
      | Outcome.succeeded =>
          ({ t with lastRun := some now, nextDue := now + t.interval,
                    consecFailures := 0, effInterval := t.interval,
                    lastOutcome := some Outcome.succeeded },
           r.store,
           { symbol := t.symbol, dataKind := t.dataKind,
             outcome := RunOutcome.succeeded, findings := findings })
      | Outcome.partiallySucceeded =>
          ({ t with lastRun := some now, nextDue := now + t.interval,
                    consecFailures := 0, effInterval := t.interval,
                    lastOutcome := some Outcome.partiallySucceeded },
           r.store,
           { symbol := t.symbol, dataKind := t.dataKind,
             outcome := RunOutcome.partiallySucceeded, findings := findings })

/-- A task is due when its next-due timestamp has been reached (§4.4). -/
def isDue (t : CollectionTask) (now : Nat) : Bool :=
  decide (t.nextDue ≤ now)

/-- Modelled from the spec: the scheduling pass over the task list in scan
order (§4.4, §5) — every due task is executed, threading the store;
non-due tasks are untouched.  Returns the updated tasks, the final store
and the run report. -/
def runTasks (env : Adapter) (cfg : ManagerConfig) (now : Nat) :
    List CollectionTask → Store →
    List CollectionTask × Store × List ReportEntry
  | [], st => ([], st, [])
  | t :: ts, st =>
    if isDue t now then
      let e := executeTask env cfg now st t
      let rest := runTasks env cfg now ts e.2.1
      (e.1 :: rest.1, rest.2.1, e.2.2 :: rest.2.2)
    else
      let rest := runTasks env cfg now ts st
      (t :: rest.1, rest.2.1, rest.2.2)

/-- Modelled from the spec: `run_due_tasks(now)` (§4.4) — selects every
task whose next-due ≤ now, executes it and returns the new manager state
together with the run report. -/
def runDueTasks (env : Adapter) (s : ManagerState) (now : Nat) :
    ManagerState × List ReportEntry :=
  let r := runTasks env s.config now s.tasks s.store
  ({ s with tasks := r.1, store := r.2.1 }, r.2.2)

/-- Registration error (§4.4): the (symbol, data-kind) pair is already
registered with a different interval. -/
inductive RegisterError where
  | duplicateTask
deriving DecidableEq, Repr

/-- Find the task registered for a (symbol, data-kind) pair. -/
def findTask (ts : List CollectionTask) (sym : String) (k : DataKind) :
    Option CollectionTask :=
  ts.find? fun t => decide (t.symbol = sym ∧ t.dataKind = k)

/-- A freshly registered task: effective interval is the configured one,
never run, due immediately. -/
def freshTask (sym : String) (k : DataKind) (interval : Nat) (now : Nat) :
    CollectionTask :=
  { symbol := sym, dataKind := k, interval := interval,
    effInterval := interval, lastRun := none, nextDue := now,
    lastOutcome := none, consecFailures := 0 }

/-- Modelled from the spec: `register(symbol, data_kind, interval)` (§4.4)
— creates a task, fails with `DuplicateTask` only if the exact
(symbol, data-kind) pair already exists with a different interval request,
and is otherwise idempotent. -/
def register (s : ManagerState) (sym : String) (k : DataKind)
    (interval : Nat) (now : Nat) : Except RegisterError ManagerState :=
  match findTask s.tasks sym k with
  | some t =>
      if t.interval = interval then Except.ok s
      else Except.error RegisterError.duplicateTask
  | none =>
      Except.ok { s with tasks := s.tasks ++ [freshTask sym k interval now] }

/-- Modelled from the spec: the concurrency view of one task (§5) — the
per-task running flag, plus (for the purpose of stating run-exclusivity)
a count of the runs currently in flight for that task. -/
structure TaskRunState where
  running : Bool
  inFlight : Nat
deriving DecidableEq, Repr

/-- Whether a run start was scheduled or forced via `run_now` (§4.4). -/
inductive RunKind where
  | scheduled
  | manual
deriving DecidableEq, Repr

/-- Modelled from the spec: the per-task run lifecycle (§5) — a run
(scheduled or manual) may start only while the running flag is clear and
sets it; a terminal transition clears it. -/
inductive RunStep : TaskRunState → TaskRunState → Prop where
  | start (k : RunKind) (s : TaskRunState) (h : s.running = false) :
      RunStep s { running := true, inFlight := s.inFlight + 1 }
  | finish (s : TaskRunState) (h : 0 < s.inFlight) :
      RunStep s { running := false, inFlight := s.inFlight - 1 }

/-- States reachable from the idle state (no run in flight) by run
lifecycle steps. -/
inductive RunReachable : TaskRunState → Prop where
  | init : RunReachable { running := false, inFlight := 0 }
  | step {s s' : TaskRunState} :
      RunReachable s → RunStep s s' → RunReachable s'

/-- JSON-like values, the shape `to_dict` renders components into. -/
inductive JVal where
  | jstr (s : String)
  | jnum (n : Int)
  | jbool (b : Bool)
  | jarr (l : List JVal)
  | jobj (l : List (String × JVal))

/-- Modelled from the spec: the base `Component` state of
`tumkwe_invest/ui/components.py` (missing from the snapshot; reconstructed
from the recorded outputs in `notebook/ui/ui_components_demo.ipynb` and
`tumkwe_invest/ui/README.md`): a numeric identity rendered as
`component_<n>`, plus attribute and event-handler maps. -/
structure ComponentBase where
  idNum : Nat
  attributes : List (String × String)
  eventHandlers : List (String × String)
deriving DecidableEq, Repr

/-- Modelled from the spec: the component kinds demonstrated in
`ui_components_demo.ipynb`, each with the fields its recorded
`to_dict` output shows. -/
inductive UIComponent where
  | card (base : ComponentBase) (title content : String)
      (footer : Option String) (headerActions : List String)
  | button (base : ComponentBase) (label variant size : String)
      (icon : Option String) (disabled : Bool)
  | tooltip (base : ComponentBase) (content position : String)
  | tabs (base : ComponentBase) (tabItems : List (String × String))
      (activeTab : Nat)
  | toggleSwitch (base : ComponentBase) (label : String) (checked : Bool)
      (description : Option String)
  | chart (base : ComponentBase) (chartConfig : JVal)
      (height width : Option String)
  | section (base : ComponentBase) (title : String)
      (description : Option String) (components : List JVal)
      (collapsed : Bool)

/-- The base state of a component. -/
def UIComponent.base : UIComponent → ComponentBase
  | .card b .. => b
  | .button b .. => b
  | .tooltip b .. => b
  | .tabs b .. => b
  | .toggleSwitch b .. => b
  | .chart b .. => b
  | .section b .. => b

/-- The CSS class naming each component kind — the first element of the
`classes` list in every recorded `to_dict` output. -/
def UIComponent.kindClass : UIComponent → String
  | .card .. => "card"
  | .button .. => "button"
  | .tooltip .. => "tooltip"
  | .tabs .. => "tabs"
  | .toggleSwitch .. => "toggle-switch"
  | .chart .. => "chart"
  | .section .. => "section"

/-- The `type` value of each component kind, per the recorded outputs. -/
def UIComponent.typeName : UIComponent → String
  | .card .. => "card"
  | .button .. => "button"
  | .tooltip .. => "tooltip"
  | .tabs .. => "tabs"
  | .toggleSwitch .. => "toggleSwitch"
  | .chart .. => "chart"
  | .section .. => "section"

/-- The `classes` list of a component, per the recorded outputs: the kind
class, plus variant/size modifiers for buttons and the position modifier
for tooltips. -/
def UIComponent.classList : UIComponent → List String
  | .button _ _ variant size _ _ =>
      ["button", "button-" ++ variant, "button-" ++ size]
  | .tooltip _ _ position => ["tooltip", "tooltip-" ++ position]
  | c => [c.kindClass]

/-- Render an optional field as an optional dictionary entry. -/
def optField (key : String) : Option String → List (String × JVal)
  | none => []
  | some v => [(key, JVal.jstr v)]

/-- The common head of every `to_dict` output: id, classes, attributes,
eventHandlers and type, in the order the notebook outputs record. -/
def baseDict (c : UIComponent) : List (String × JVal) :=
  [("id", JVal.jstr ("component_" ++ toString c.base.idNum)),
   ("classes", JVal.jarr (c.classList.map JVal.jstr)),
   ("attributes", JVal.jobj (c.base.attributes.map fun p => (p.1, JVal.jstr p.2))),
   ("eventHandlers", JVal.jobj (c.base.eventHandlers.map fun p => (p.1, JVal.jstr p.2))),
   ("type", JVal.jstr c.typeName)]

/-- Modelled from the spec: `to_dict` of each component kind, reconstructed
from the recorded notebook outputs. -/
def UIComponent.toDict (c : UIComponent) : List (String × JVal) :=
  baseDict c ++
  match c with
  | .card _ title content footer headerActions =>
      [("title", JVal.jstr title), ("content", JVal.jstr content)] ++
      optField "footer" footer ++
      [("headerActions", JVal.jarr (headerActions.map JVal.jstr))]
  | .button _ label _ _ icon disabled =>
      [("label", JVal.jstr label)] ++ optField "icon" icon ++
      [("disabled", JVal.jbool disabled)]
  | .tooltip _ content position =>
      [("content", JVal.jstr content), ("position", JVal.jstr position)]
  | .tabs _ tabItems activeTab =>
      [("tabs", JVal.jarr (tabItems.map fun p =>
          JVal.jobj [("label", JVal.jstr p.1), ("content", JVal.jstr p.2)])),
       ("activeTab", JVal.jnum activeTab)]
  | .toggleSwitch _ label checked description =>
      [("label", JVal.jstr label), ("checked", JVal.jbool checked)] ++
      optField "description" description
  | .chart _ chartConfig height width =>
      [("chartConfig", chartConfig)] ++
      optField "height" height ++ optField "width" width
  | .section _ title description components collapsed =>
      [("title", JVal.jstr title)] ++ optField "description" description ++
      [("components", JVal.jarr components),
       ("collapsed", JVal.jbool collapsed)]

/-- Modelled from the spec: the mutating operations exercised in the
notebook and the README (`set_footer`, `set_icon`, `set_active_tab`,
`set_description`, `set_height`, `set_width`, `on_event`,
`set_attribute`). -/
inductive UIOp where
  | setFooter (s : String)
  | setIcon (s : String)
  | setActiveTab (n : Nat)
  | setDescription (s : String)
  | setHeight (s : String)
  | setWidth (s : String)
  | onEvent (ev handler : String)
  | setAttribute (k v : String)

/-- Record an event handler on the base state. -/
def ComponentBase.withHandler (b : ComponentBase) (ev handler : String) :
    ComponentBase :=
  { b with eventHandlers := b.eventHandlers ++ [(ev, handler)] }

/-- Record an attribute on the base state. -/
def ComponentBase.withAttribute (b : ComponentBase) (k v : String) :
    ComponentBase :=
  { b with attributes := b.attributes ++ [(k, v)] }

/-- Apply one mutating operation to a component; an operation that does not
exist for the component's kind leaves it unchanged. -/
def applyOp (op : UIOp) (c : UIComponent) : UIComponent :=
  match op, c with
  | UIOp.setFooter s, .card b t ct _ ha => .card b t ct (some s) ha
  | UIOp.setIcon s, .button b l v sz _ d => .button b l v sz (some s) d
  | UIOp.setActiveTab n, .tabs b items _ => .tabs b items n
  | UIOp.setDescription s, .toggleSwitch b l ch _ => .toggleSwitch b l ch (some s)
  | UIOp.setDescription s, .section b t _ cs col => .section b t (some s) cs col
  | UIOp.setHeight s, .chart b cfg _ w => .chart b cfg (some s) w
  | UIOp.setWidth s, .chart b cfg h _ => .chart b cfg h (some s)
  | UIOp.onEvent ev h, .card b t ct f ha => .card (b.withHandler ev h) t ct f ha
  | UIOp.onEvent ev h, .button b l v sz i d => .button (b.withHandler ev h) l v sz i d
  | UIOp.onEvent ev h, .tooltip b ct p => .tooltip (b.withHandler ev h) ct p
  | UIOp.onEvent ev h, .tabs b items a => .tabs (b.withHandler ev h) items a
  | UIOp.onEvent ev h, .toggleSwitch b l ch d => .toggleSwitch (b.withHandler ev h) l ch d
  | UIOp.onEvent ev h, .chart b cfg ht w => .chart (b.withHandler ev h) cfg ht w
  | UIOp.onEvent ev h, .section b t d cs col => .section (b.withHandler ev h) t d cs col
  | UIOp.setAttribute k v, .card b t ct f ha => .card (b.withAttribute k v) t ct f ha
  | UIOp.setAttribute k v, .button b l vr sz i d => .button (b.withAttribute k v) l vr sz i d
  | UIOp.setAttribute k v, .tooltip b ct p => .tooltip (b.withAttribute k v) ct p
  | UIOp.setAttribute k v, .tabs b items a => .tabs (b.withAttribute k v) items a
  | UIOp.setAttribute k v, .toggleSwitch b l ch d => .toggleSwitch (b.withAttribute k v) l ch d
  | UIOp.setAttribute k v, .chart b cfg ht w => .chart (b.withAttribute k v) cfg ht w
  | UIOp.setAttribute k v, .section b t d cs col => .section (b.withAttribute k v) t d cs col
  | _, c => c

/-- Apply a sequence of mutating operations in order. -/
def applyOps (ops : List UIOp) (c : UIComponent) : UIComponent :=
  ops.foldl (fun c op => applyOp op c) c

/-! ### Helper lemmas -/

/-- Applying one operation never changes a component's kind class. -/
theorem applyOp_kindClass (op : UIOp) (c : UIComponent) :
    (applyOp op c).kindClass = c.kindClass := by
  cases op <;> cases c <;> rfl

/-- Applying a sequence of operations never changes the kind class. -/
theorem applyOps_kindClass (ops : List UIOp) (c : UIComponent) :
    (applyOps ops c).kindClass = c.kindClass := by
  induction ops generalizing c with
  | nil => rfl
  | cons op ops ih =>
      simpa [applyOps, applyOp_kindClass] using ih (applyOp op c)

/-- The class list of every component starts with its kind class. -/
theorem classList_head (c : UIComponent) :
    c.classList.head? = some c.kindClass := by
  cases c <;> rfl

/-! ### C9 -/

/-- Claim C9: For every task, runs are strictly sequential: in every state
reachable through the run lifecycle (scheduled or `run_now` starts, guarded
by the per-task running flag), at most one run is ever in flight, and
whenever the flag is clear — the only situation in which a new run may
start — no prior run is in flight. -/
theorem c9_run_exclusivity (s : TaskRunState) (h : RunReachable s) :
    s.inFlight ≤ 1 ∧ (s.running = false → s.inFlight = 0) := by
  induction h with
  | init => exact ⟨Nat.zero_le 1, fun _ => rfl⟩
  | @step u u' hr hs ih =>
      cases hs with
      | start k =>
          have h0 : u.inFlight = 0 := ih.2 (by assumption)
          refine ⟨by simp [h0], fun hfalse => by cases hfalse⟩
      | finish =>
          have h1 : u.inFlight = 1 := Nat.le_antisymm ih.1 (by assumption)
          exact ⟨by simp [h1], fun _ => by simp [h1]⟩

/-- Witness for C9 at the initial idle state. -/
theorem c9_run_exclusivity_witness :
    ({ running := false, inFlight := 0 } : TaskRunState).inFlight ≤ 1 ∧
    (({ running := false, inFlight := 0 } : TaskRunState).running = false →
      ({ running := false, inFlight := 0 } : TaskRunState).inFlight = 0) :=
  c9_run_exclusivity _ RunReachable.init

/-! ### C10 -/

/-- Key lookup in a rendered dictionary. -/
def dictLookup (key : String) : List (String × JVal) → Option JVal
  | [] => none
  | (k, v) :: tl => if k = key then some v else dictLookup key tl

/-- Claim C10: For every UI component and every sequence of mutating
operations applied to it, the dictionary returned by `to_dict` contains the
keys "id", "classes", "attributes", "eventHandlers" and "type"; the "id"
value is the string `component_<n>` for some `n`, and the "classes" value
is a list whose first element is the class naming the component's kind. -/
theorem c10_to_dict_invariants (c : UIComponent) (ops : List UIOp) :
    (∃ n : Nat, dictLookup "id" (applyOps ops c).toDict =
        some (JVal.jstr ("component_" ++ toString n))) ∧
    (∃ cl : List String,
        dictLookup "classes" (applyOps ops c).toDict =
          some (JVal.jarr (cl.map JVal.jstr)) ∧
        cl.head? = some c.kindClass) ∧
    (dictLookup "attributes" (applyOps ops c).toDict).isSome = true ∧
    (dictLookup "eventHandlers" (applyOps ops c).toDict).isSome = true ∧
    (dictLookup "type" (applyOps ops c).toDict).isSome = true := by
  refine ⟨⟨(applyOps ops c).base.idNum, rfl⟩,
          ⟨(applyOps ops c).classList, rfl, ?_⟩, rfl, rfl, rfl⟩
  rw [classList_head, applyOps_kindClass]

/-! ### C8 -/

/-- Claim C8: `register(symbol, data_kind, interval)` fails with
`DuplicateTask` exactly when a task for that (symbol, data-kind) pair is
already registered with a different interval, and re-registering the same
pair with the same interval succeeds and leaves the state unchanged. -/
theorem c8_register_duplicate_iff (s : ManagerState) (sym : String)
    (k : DataKind) (interval now : Nat) :
    (register s sym k interval now = Except.error RegisterError.duplicateTask ↔
      ∃ t, findTask s.tasks sym k = some t ∧ t.interval ≠ interval) ∧
    (∀ t, findTask s.tasks sym k = some t → t.interval = interval →
      register s sym k interval now = Except.ok s) := by
  constructor
  · cases hf : findTask s.tasks sym k with
    | none => simp [register, hf]
    | some t =>
        by_cases hi : t.interval = interval
        · simp [register, hf, hi]
        · simp only [register, hf, if_neg hi]
          constructor
          · intro _; exact ⟨t, rfl, hi⟩
          · intro _; trivial
  · intro t hf hi
    simp [register, hf, hi]

/-- Witness for C8 on a one-task registry: re-registering (AAPL, prices)
with its existing interval is accepted unchanged, and the duplicate
condition is an equivalence there. -/
theorem c8_register_duplicate_iff_witness :
    let t0 := freshTask "AAPL" DataKind.prices 24 0
    let s0 : ManagerState :=
      { config := { backoffThreshold := 3, intervalCeiling := 96 },
        tasks := [t0], store := Store.empty }
    (register s0 "AAPL" DataKind.prices 24 5 =
        Except.error RegisterError.duplicateTask ↔
      ∃ t, findTask s0.tasks "AAPL" DataKind.prices = some t ∧
        t.interval ≠ 24) ∧
    (∀ t, findTask s0.tasks "AAPL" DataKind.prices = some t →
      t.interval = 24 →
      register s0 "AAPL" DataKind.prices 24 5 = Except.ok s0) :=
  c8_register_duplicate_iff _ "AAPL" DataKind.prices 24 5

/-! ### C7 -/

/-- The task state after one `SourceUnavailable` execution. -/
theorem executeTask_unavailable (env : Adapter) (cfg : ManagerConfig)
    (now : Nat) (st : Store) (t : CollectionTask)
    (henv : env t.symbol t.dataKind =
      FetchResult.err AdapterError.sourceUnavailable) :
    (executeTask env cfg now st t).1 =
      { t with lastRun := some now,
               nextDue := now + (applyBackoff cfg t).2,
               consecFailures := t.consecFailures + 1,
               effInterval := (applyBackoff cfg t).2,
               lastOutcome := some Outcome.failed } := by
  simp [executeTask, henv, applyBackoff]

/-- The task state after an execution whose fetch returns an empty batch:
the commit succeeds, the failure streak ends and the effective interval is
reset to the configured one. -/
theorem executeTask_ok_empty (env : Adapter) (cfg : ManagerConfig)
    (now : Nat) (st : Store) (t : CollectionTask)
    (henv : env t.symbol t.dataKind = FetchResult.ok []) :
    (executeTask env cfg now st t).1 =
      { t with lastRun := some now,
               nextDue := now + t.interval,
               consecFailures := 0,
               effInterval := t.interval,
               lastOutcome := some Outcome.succeeded } := by
  simp [executeTask, henv, validate, outlierFindings, put, Outcome.succeeded]

/-- Claim C7: With the default threshold of 3, a fresh task (no failure
streak, effective interval equal to the configured one) keeps its
effective interval across the first two consecutive `SourceUnavailable`
outcomes, has it doubled — capped at the configured ceiling — by the
third, and has it reset to the configured interval (with the streak
cleared) by one subsequent `Succeeded` outcome. -/
theorem c7_backoff_doubles_then_resets (envF envS : Adapter)
    (cfg : ManagerConfig) (t : CollectionTask)
    (n1 n2 n3 n4 : Nat) (st1 st2 st3 st4 : Store)
    (h0 : t.consecFailures = 0) (he : t.effInterval = t.interval)
    (hth : cfg.backoffThreshold = 3)
    (henvF : envF t.symbol t.dataKind =
      FetchResult.err AdapterError.sourceUnavailable)
    (henvS : envS t.symbol t.dataKind = FetchResult.ok []) :
    let t1 := (executeTask envF cfg n1 st1 t).1
    let t2 := (executeTask envF cfg n2 st2 t1).1
    let t3 := (executeTask envF cfg n3 st3 t2).1
    let t4 := (executeTask envS cfg n4 st4 t3).1
    t1.effInterval = t.interval ∧
    t2.effInterval = t.interval ∧
    t3.effInterval = min (t.interval * 2) cfg.intervalCeiling ∧
    t3.consecFailures = 3 ∧
    t4.effInterval = t.interval ∧
    t4.consecFailures = 0 := by
  intro t1 t2 t3 t4
  have h1 : t1 = { t with lastRun := some n1, nextDue := n1 + t.interval,
                          consecFailures := 1, effInterval := t.interval,
                          lastOutcome := some Outcome.failed } := by
    rw [show t1 = (executeTask envF cfg n1 st1 t).1 from rfl,
        executeTask_unavailable envF cfg n1 st1 t henvF]
    simp [applyBackoff, h0, he, hth]
  have h2 : t2 = { t with lastRun := some n2, nextDue := n2 + t.interval,
                          consecFailures := 2, effInterval := t.interval,
                          lastOutcome := some Outcome.failed } := by
    rw [show t2 = (executeTask envF cfg n2 st2 t1).1 from rfl,
        executeTask_unavailable envF cfg n2 st2 t1 (by rw [h1]; exact henvF)]
    rw [h1]
    simp [applyBackoff, hth]
  have h3 : t3 = { t with lastRun := some n3,
                          nextDue := n3 + min (t.interval * 2) cfg.intervalCeiling,
                          consecFailures := 3,
                          effInterval := min (t.interval * 2) cfg.intervalCeiling,
                          lastOutcome := some Outcome.failed } := by
    rw [show t3 = (executeTask envF cfg n3 st3 t2).1 from rfl,
        executeTask_unavailable envF cfg n3 st3 t2 (by rw [h2]; exact henvF)]
    rw [h2]
    simp [applyBackoff, hth]
  have h4 : t4 = { t with lastRun := some n4,
                          nextDue := n4 + t.interval,
                          consecFailures := 0,
                          effInterval := t.interval,
                          lastOutcome := some Outcome.succeeded } := by
    rw [show t4 = (executeTask envS cfg n4 st4 t3).1 from rfl,
        executeTask_ok_empty envS cfg n4 st4 t3 (by rw [h3]; exact henvS)]
    rw [h3]
  rw [h1, h2, h3, h4]
  exact ⟨rfl, rfl, rfl, rfl, rfl, rfl⟩

/-- Witness for C7 on a concrete fresh task with interval 24 and ceiling 96. -/
theorem c7_backoff_doubles_then_resets_witness :
    let t0 := freshTask "AAPL" DataKind.prices 24 0
    let cfg : ManagerConfig := { backoffThreshold := 3, intervalCeiling := 96 }
    let envF : Adapter := fun _ _ => FetchResult.err AdapterError.sourceUnavailable
    let envS : Adapter := fun _ _ => FetchResult.ok []
    let t1 := (executeTask envF cfg 1 Store.empty t0).1
    let t2 := (executeTask envF cfg 2 Store.empty t1).1
    let t3 := (executeTask envF cfg 3 Store.empty t2).1
    let t4 := (executeTask envS cfg 4 Store.empty t3).1
    t1.effInterval = t0.interval ∧
    t2.effInterval = t0.interval ∧
    t3.effInterval = min (t0.interval * 2) cfg.intervalCeiling ∧
    t3.consecFailures = 3 ∧
    t4.effInterval = t0.interval ∧
    t4.consecFailures = 0 :=
  c7_backoff_doubles_then_resets _ _ _ _ 1 2 3 4 _ _ _ _
    rfl rfl rfl rfl rfl

/-! ### Store lemmas -/

/-- Updating the same key twice keeps only the second value. -/
theorem store_update_update (st : Store) (sym : String) (k : DataKind)
    (v w : List StockPriceBar) :
    Store.update (Store.update st sym k v) sym k w = Store.update st sym k w := by
  funext s' k'
  by_cases h : s' = sym ∧ k' = k <;> simp [Store.update, h]

/-- Reading back the key just written. -/
theorem store_update_self (st : Store) (sym : String) (k : DataKind)
    (v : List StockPriceBar) :
    Store.update st sym k v sym k = some v := by
  simp [Store.update]

/-- Every bar of the new sub-batch is in the merged series. -/
theorem mem_mergeBars_right {b : StockPriceBar} (old new : List StockPriceBar)
    (h : b ∈ new) : b ∈ mergeBars old new :=
  List.mem_append_right _ h

/-- Every bar of the merged series comes from the old series or the new
sub-batch. -/
theorem mem_of_mem_mergeBars {b : StockPriceBar} (old new : List StockPriceBar)
    (h : b ∈ mergeBars old new) : b ∈ old ∨ b ∈ new := by
  rcases List.mem_append.mp h with h | h
  · exact Or.inl (List.mem_of_mem_filter h)
  · exact Or.inr h

/-- An old bar whose date does not occur in the new sub-batch survives the
merge. -/
theorem mem_mergeBars_left {b : StockPriceBar} (old new : List StockPriceBar)
    (hb : b ∈ old) (h : ∀ n ∈ new, n.date ≠ b.date) :
    b ∈ mergeBars old new := by
  refine List.mem_append_left _ (List.mem_filter.mpr ⟨hb, ?_⟩)
  simp only [Bool.not_eq_true', List.any_eq_false, decide_eq_true_eq]
  exact h

/-- Merging the same sub-batch twice is the same as merging it once. -/
theorem mergeBars_idem (old new : List StockPriceBar) :
    mergeBars (mergeBars old new) new = mergeBars old new := by
  unfold mergeBars
  rw [List.filter_append, List.filter_filter]
  have hnew : new.filter
      (fun b => !(new.any fun n => decide (n.date = b.date))) = [] := by
    refine List.filter_eq_nil_iff.mpr fun b hb => ?_
    simp only [Bool.not_eq_true', Bool.not_eq_false, List.any_eq_true,
      decide_eq_true_eq]
    exact ⟨b, hb, rfl⟩
  simp only [Bool.and_self, hnew, List.nil_append, List.append_nil,
    List.append_assoc]

/-! ### C4 -/

/-- Claim C4: calling `put` twice in succession with the identical batch
and findings yields exactly the same stored state as calling it once —
the merge by natural key is idempotent, for time-series and singleton
kinds alike. -/
theorem c4_put_idempotent (st : Store) (sym : String) (k : DataKind)
    (batch : List StockPriceBar) (findings : List ValidationFinding) :
    (put (put st sym k batch findings).store sym k batch findings).store =
      (put st sym k batch findings).store := by
  cases hc : ((batch.filter fun b => !(hasErrorFinding findings b)).isEmpty
      && !batch.isEmpty) with
  | true => simp [put, hc]
  | false =>
      cases hk : k.isTimeSeries with
      | true =>
          simp [put, hc, hk, store_update_self, store_update_update,
            mergeBars_idem]
      | false =>
          simp [put, hc, hk, store_update_self, store_update_update]

/-! ### C3 -/

/-- Claim C3: a `put` whose non-empty batch carries only error-severity
entities commits nothing and returns a failure outcome with the whole
batch reported; a `put` whose batch mixes error-severity and passing
entities returns a partial success in which every passing entity is
committed, the error-severity remainder is reported, and no error-severity
entity enters the series unless it was already stored. -/
theorem c3_put_error_policy (st : Store) (sym : String) (k : DataKind)
    (batch : List StockPriceBar) (findings : List ValidationFinding)
    (hne : batch ≠ []) :
    ((∀ b ∈ batch, hasErrorFinding findings b = true) →
        put st sym k batch findings =
          { store := st, outcome := Outcome.failed, rejected := batch }) ∧
    ((∃ b ∈ batch, hasErrorFinding findings b = true) →
      (∃ b ∈ batch, hasErrorFinding findings b = false) →
      ∃ series,
        (put st sym k batch findings).store sym k = some series ∧
        (put st sym k batch findings).outcome = Outcome.partiallySucceeded ∧
        (put st sym k batch findings).rejected =
          batch.filter (fun b => hasErrorFinding findings b) ∧
        (∀ b ∈ batch, hasErrorFinding findings b = false → b ∈ series) ∧
        (∀ b ∈ batch, hasErrorFinding findings b = true →
          b ∈ series → b ∈ (st sym k).getD [])) := by
  constructor
  · intro hall
    have hpass : batch.filter (fun b => !(hasErrorFinding findings b)) = [] := by
      refine List.filter_eq_nil_iff.mpr fun b hb => ?_
      simp [hall b hb]
    have hrej : batch.filter (fun b => hasErrorFinding findings b) = batch :=
      List.filter_eq_self.mpr hall
    have hbe : batch.isEmpty = false := by simpa using hne
    simp [put, hpass, hrej, hbe]
  · rintro ⟨be, hbem, hbee⟩ ⟨bp, hbpm, hbpp⟩
    have hpassne : batch.filter (fun b => !(hasErrorFinding findings b)) ≠ [] :=
      List.ne_nil_of_mem (List.mem_filter.mpr ⟨hbpm, by simp [hbpp]⟩)
    have hcond : ((batch.filter fun b => !(hasErrorFinding findings b)).isEmpty
        && !batch.isEmpty) = false := by
      have : (batch.filter fun b =>
          !(hasErrorFinding findings b)).isEmpty = false := by
        simpa using hpassne
      simp [this]
    have hrejne : batch.filter (fun b => hasErrorFinding findings b) ≠ [] :=
      List.ne_nil_of_mem (List.mem_filter.mpr ⟨hbem, hbee⟩)
    have hrejb : (batch.filter fun b =>
        hasErrorFinding findings b).isEmpty = false := by
      simpa using hrejne
    refine ⟨if k.isTimeSeries then
        mergeBars ((st sym k).getD [])
          (batch.filter fun b => !(hasErrorFinding findings b))
      else batch.filter fun b => !(hasErrorFinding findings b),
      ?_, ?_, ?_, ?_, ?_⟩
    · simp [put, hcond, store_update_self]
    · simp [put, hcond, hrejb]
    · simp [put, hcond]
    · intro b hb hbpass
      have hmem : b ∈ batch.filter fun b => !(hasErrorFinding findings b) :=
        List.mem_filter.mpr ⟨hb, by simp [hbpass]⟩
      cases hk : k.isTimeSeries with
      | true => simpa [hk] using mem_mergeBars_right _ _ hmem
      | false => simpa [hk] using hmem
    · intro b hb hberr hbin
      cases hk : k.isTimeSeries with
      | true =>
          rcases mem_of_mem_mergeBars _ _ (by simpa [hk] using hbin) with h | h
          · exact h
          · have := (List.mem_filter.mp h).2
            simp [hberr] at this
      | false =>
          have h2 : b ∈ batch ∧ hasErrorFinding findings b = false := by
            simpa [hk] using hbin
          simp [hberr] at h2

/-- Witness for C3 on a two-bar batch (one error-severity, one passing)
over the empty store. -/
theorem c3_put_error_policy_witness :
    let bBad : StockPriceBar :=
      { symbol := "AAPL", date := 1, openPrice := 10, high := 5, low := 9,
        close := 10, volume := 100 }
    let bGood : StockPriceBar :=
      { symbol := "AAPL", date := 2, openPrice := 10, high := 12, low := 9,
        close := 11, volume := 100 }
    let fs : List ValidationFinding :=
      [{ ref := bBad, severity := Severity.error, rule := "invalid",
         message := "high/low/open/close/volume out of range" }]
    ((∀ b ∈ [bBad, bGood], hasErrorFinding fs b = true) →
        put Store.empty "AAPL" DataKind.prices [bBad, bGood] fs =
          { store := Store.empty, outcome := Outcome.failed,
            rejected := [bBad, bGood] }) ∧
    ((∃ b ∈ [bBad, bGood], hasErrorFinding fs b = true) →
      (∃ b ∈ [bBad, bGood], hasErrorFinding fs b = false) →
      ∃ series,
        (put Store.empty "AAPL" DataKind.prices [bBad, bGood] fs).store
            "AAPL" DataKind.prices = some series ∧
        (put Store.empty "AAPL" DataKind.prices [bBad, bGood] fs).outcome =
          Outcome.partiallySucceeded ∧
        (put Store.empty "AAPL" DataKind.prices [bBad, bGood] fs).rejected =
          [bBad, bGood].filter (fun b => hasErrorFinding fs b) ∧
        (∀ b ∈ [bBad, bGood], hasErrorFinding fs b = false → b ∈ series) ∧
        (∀ b ∈ [bBad, bGood], hasErrorFinding fs b = true →
          b ∈ series →
          b ∈ (Store.empty "AAPL" DataKind.prices).getD [])) :=
  c3_put_error_policy Store.empty "AAPL" DataKind.prices _ _ (by decide)

/-! ### C5 -/

/-- A series has no two bars with the same trading date. -/
abbrev datesNodup (l : List StockPriceBar) : Prop :=
  (l.map fun b => b.date).Nodup

/-- Merging preserves date uniqueness: surviving old bars have dates
absent from the new sub-batch. -/
theorem datesNodup_mergeBars (old new : List StockPriceBar)
    (h1 : datesNodup old) (h2 : datesNodup new) :
    datesNodup (mergeBars old new) := by
  unfold datesNodup mergeBars
  rw [List.map_append, List.nodup_append]
  refine ⟨h1.sublist ((List.filter_sublist old).map _), h2, ?_⟩
  intro d hd hd2
  rcases List.mem_map.mp hd with ⟨b, hbf, rfl⟩
  rcases List.mem_map.mp hd2 with ⟨n, hn, hdate⟩
  have hflt := (List.mem_filter.mp hbf).2
  simp only [Bool.not_eq_true', List.any_eq_false, decide_eq_true_eq] at hflt
  exact hflt n hn hdate

/-- With an empty findings list every bar passes the storage policy. -/
theorem filter_pass_nil (batch : List StockPriceBar) :
    (batch.filter fun b => !(hasErrorFinding [] b)) = batch := by
  refine List.filter_eq_self.mpr fun b _ => ?_
  simp [hasErrorFinding]

/-- A `put` of validated prices (no findings) always commits the merged
series and succeeds. -/
theorem put_nil_findings (st : Store) (sym : String)
    (batch : List StockPriceBar) :
    put st sym DataKind.prices batch [] =
      { store := st.update sym DataKind.prices
          (mergeBars ((st sym DataKind.prices).getD []) batch),
        outcome := Outcome.succeeded, rejected := [] } := by
  have hcond : ((batch.filter fun b =>
      !(hasErrorFinding [] b)).isEmpty && !batch.isEmpty) = false := by
    rw [filter_pass_nil]
    cases batch <;> simp
  simp [put, hcond, filter_pass_nil, hasErrorFinding, DataKind.isTimeSeries]

/-- Claim C5: committing validated prices for a window and then for an
adjacent window yields a stored series that has a bar for every date of
both batches, contains no two bars with the same trading date (given the
prior series and each batch are duplicate-free), keeps every first-window
bar whose date the second window does not touch, and contains nothing
beyond the two batches and the previously stored series. -/
theorem c5_windows_accumulate (st : Store) (sym : String)
    (b1 b2 : List StockPriceBar)
    (h0 : datesNodup ((st sym DataKind.prices).getD []))
    (h1 : datesNodup b1) (h2 : datesNodup b2) :
    ∃ series,
      ((put (put st sym DataKind.prices b1 []).store sym DataKind.prices
          b2 []).store sym DataKind.prices) = some series ∧
      (∀ b ∈ b1 ++ b2, ∃ b' ∈ series, b'.date = b.date) ∧
      datesNodup series ∧
      (∀ b ∈ b1, (∀ b' ∈ b2, b'.date ≠ b.date) → b ∈ series) ∧
      (∀ b ∈ series,
        b ∈ b1 ∨ b ∈ b2 ∨ b ∈ (st sym DataKind.prices).getD []) := by
  have e1 : (put st sym DataKind.prices b1 []).store =
      st.update sym DataKind.prices
        (mergeBars ((st sym DataKind.prices).getD []) b1) := by
    rw [put_nil_findings]
  refine ⟨mergeBars (mergeBars ((st sym DataKind.prices).getD []) b1) b2,
    ?_, ?_, ?_, ?_, ?_⟩
  · rw [e1, put_nil_findings]
    simp [store_update_self]
  · intro b hb
    rcases List.mem_append.mp hb with hb1 | hb2
    · by_cases hex : ∃ n ∈ b2, n.date = b.date
      · rcases hex with ⟨n, hn, hd⟩
        exact ⟨n, mem_mergeBars_right _ _ hn, hd⟩
      · push_neg at hex
        exact ⟨b, mem_mergeBars_left _ _ (mem_mergeBars_right _ _ hb1) hex,
          rfl⟩
    · exact ⟨b, mem_mergeBars_right _ _ hb2, rfl⟩
  · exact datesNodup_mergeBars _ _ (datesNodup_mergeBars _ _ h0 h1) h2
  · intro b hb hno
    exact mem_mergeBars_left _ _ (mem_mergeBars_right _ _ hb) hno
  · intro b hb
    rcases mem_of_mem_mergeBars _ _ hb with h | h
    · rcases mem_of_mem_mergeBars _ _ h with h' | h'
      · exact Or.inr (Or.inr h')
      · exact Or.inl h'
    · exact Or.inr (Or.inl h)

/-- Witness for C5: two-bar windows overlapping on date 2, over the empty
store. -/
theorem c5_windows_accumulate_witness :
    let mk : Nat → StockPriceBar := fun d =>
      { symbol := "AAPL", date := d, openPrice := 10, high := 12, low := 9,
        close := 11, volume := 100 }
    let b1 := [mk 1, mk 2]
    let b2 := [mk 2, mk 3]
    ∃ series,
      ((put (put Store.empty "AAPL" DataKind.prices b1 []).store "AAPL"
          DataKind.prices b2 []).store "AAPL" DataKind.prices) =
        some series ∧
      (∀ b ∈ b1 ++ b2, ∃ b' ∈ series, b'.date = b.date) ∧
      datesNodup series ∧
      (∀ b ∈ b1, (∀ b' ∈ b2, b'.date ≠ b.date) → b ∈ series) ∧
      (∀ b ∈ series,
        b ∈ b1 ∨ b ∈ b2 ∨
          b ∈ (Store.empty "AAPL" DataKind.prices).getD []) :=
  c5_windows_accumulate Store.empty "AAPL" _ _ (by decide) (by decide)
    (by decide)

/-! ### C1 -/

/-- What a `put` into the empty store leaves at its key: nothing when the
non-empty batch has no passing bar, otherwise exactly the passing bars. -/
theorem put_empty_lookup (sym : String) (k : DataKind)
    (batch : List StockPriceBar) (findings : List ValidationFinding) :
    (put Store.empty sym k batch findings).store sym k =
      if (batch.filter fun x => !(hasErrorFinding findings x)) = [] ∧ batch ≠ []
      then none
      else some (batch.filter fun x => !(hasErrorFinding findings x)) := by
  by_cases h1 : (batch.filter fun x => !(hasErrorFinding findings x)) = []
  · by_cases h2 : batch = []
    · subst h2
      simp only [List.filter_nil] at h1 ⊢
      have : put Store.empty sym k [] findings =
          { store := Store.empty.update sym k
              (if k.isTimeSeries then mergeBars [] [] else []),
            outcome := Outcome.succeeded, rejected := [] } := by
        simp [put, Store.empty, mergeBars]
      rw [this]
      cases k <;> simp [store_update_self, mergeBars, DataKind.isTimeSeries]
    · have hcond : ((batch.filter fun x =>
          !(hasErrorFinding findings x)).isEmpty && !batch.isEmpty) = true := by
        simp [h1, h2]
      simp [put, hcond, h1, h2, Store.empty]
  · have hcond : ((batch.filter fun x =>
        !(hasErrorFinding findings x)).isEmpty && !batch.isEmpty) = false := by
      have : (batch.filter fun x =>
          !(hasErrorFinding findings x)).isEmpty = false := by simpa using h1
      simp [this]
    have hmerge : mergeBars ((Store.empty sym k).getD [])
        (batch.filter fun x => !(hasErrorFinding findings x)) =
        batch.filter fun x => !(hasErrorFinding findings x) := rfl
    cases k <;>
      simp [put, hcond, h1, store_update_self, hmerge, DataKind.isTimeSeries]

/-- Claim C1: after `validate`, every bar with `high < low` appears in the
findings with severity error, and a `put` of the batch (with those
findings) into the store excludes exactly the error-severity bars: over a
fresh store, `get_latest` afterwards returns a batch containing precisely
the bars that carry no error-severity finding. -/
theorem c1_validate_put_get (batch : List StockPriceBar) (sym : String) :
    (∀ b ∈ batch, b.high < b.low →
      ∃ f ∈ validate batch [], f.ref = b ∧ f.severity = Severity.error) ∧
    (∀ b : StockPriceBar,
      (∃ l, getLatest (put Store.empty sym DataKind.prices batch
          (validate batch [])).store sym DataKind.prices =
            Except.ok l ∧ b ∈ l) ↔
      (b ∈ batch ∧ hasErrorFinding (validate batch []) b = false)) := by
  constructor
  · intro b hb hlt
    have hinv : barStructurallyInvalid b = true := by
      unfold barStructurallyInvalid
      simp [hlt]
    refine ⟨{ ref := b, severity := Severity.error, rule := "invalid",
              message := "high/low/open/close/volume out of range" },
      List.mem_append_left _ (List.mem_filterMap.mpr ⟨b, hb, ?_⟩), rfl, rfl⟩
    rw [if_pos hinv]
  · intro b
    simp only [getLatest]
    rw [put_empty_lookup]
    by_cases hcase : (batch.filter fun x =>
        !(hasErrorFinding (validate batch []) x)) = [] ∧ batch ≠ []
    · rw [if_pos hcase]
      constructor
      · rintro ⟨l, hl, _⟩
        cases hl
      · rintro ⟨hbm, hbp⟩
        have : b ∈ batch.filter fun x =>
            !(hasErrorFinding (validate batch []) x) :=
          List.mem_filter.mpr ⟨hbm, by simp [hbp]⟩
        rw [hcase.1] at this
        cases this
    · rw [if_neg hcase]
      constructor
      · rintro ⟨l, hl, hbl⟩
        have : l = batch.filter fun x =>
            !(hasErrorFinding (validate batch []) x) := by
          cases hl
          rfl
        rw [this] at hbl
        have := List.mem_filter.mp hbl
        exact ⟨this.1, by simpa using this.2⟩
      · rintro ⟨hbm, hbp⟩
        exact ⟨_, rfl, List.mem_filter.mpr ⟨hbm, by simp [hbp]⟩⟩

/-! ### Scheduling lemmas -/

/-- A task execution reports under the task's own symbol and data kind,
whatever the outcome. -/
theorem executeTask_entry (env : Adapter) (cfg : ManagerConfig) (now : Nat)
    (st : Store) (t : CollectionTask) :
    (executeTask env cfg now st t).2.2.symbol = t.symbol ∧
    (executeTask env cfg now st t).2.2.dataKind = t.dataKind := by
  cases h : env t.symbol t.dataKind with
  | ok batch =>
      cases ho : (put st t.symbol t.dataKind batch
          (validate batch ((st t.symbol t.dataKind).getD []))).outcome <;>
        simp [executeTask, h, ho]
  | err e => cases e <;> simp [executeTask, h]

/-- After executing a task, its next-due time lies strictly in the future
(for positive configured and effective intervals and a positive ceiling). -/
theorem executeTask_nextDue_pos (env : Adapter) (cfg : ManagerConfig)
    (now : Nat) (st : Store) (t : CollectionTask)
    (hi : 0 < t.interval) (he : 0 < t.effInterval)
    (hc : 0 < cfg.intervalCeiling) :
    now < (executeTask env cfg now st t).1.nextDue := by
  cases h : env t.symbol t.dataKind with
  | ok batch =>
      cases ho : (put st t.symbol t.dataKind batch
          (validate batch ((st t.symbol t.dataKind).getD []))).outcome <;>
        simp only [executeTask, h, ho] <;> omega
  | err e =>
      cases e with
      | sourceUnavailable =>
          simp only [executeTask, h, applyBackoff]
          by_cases hb : cfg.backoffThreshold ≤ t.consecFailures + 1
          · rw [if_pos hb]
            exact Nat.lt_add_of_pos_right (lt_min (by omega) hc)
          · rw [if_neg hb]
            exact Nat.lt_add_of_pos_right he
      | symbolNotFound =>
          simp only [executeTask, h]
          exact Nat.lt_add_of_pos_right he

/-- Executing a task changes neither its configured interval nor its
symbol or data kind. -/
theorem executeTask_keeps_key (env : Adapter) (cfg : ManagerConfig)
    (now : Nat) (st : Store) (t : CollectionTask) :
    (executeTask env cfg now st t).1.symbol = t.symbol ∧
    (executeTask env cfg now st t).1.dataKind = t.dataKind ∧
    (executeTask env cfg now st t).1.interval = t.interval := by
  cases h : env t.symbol t.dataKind with
  | ok batch =>
      cases ho : (put st t.symbol t.dataKind batch
          (validate batch ((st t.symbol t.dataKind).getD []))).outcome <;>
        simp [executeTask, h, ho]
  | err e => cases e <;> simp [executeTask, h]

/-- The effective interval produced by a task execution stays positive. -/
theorem executeTask_effInterval_pos (env : Adapter) (cfg : ManagerConfig)
    (now : Nat) (st : Store) (t : CollectionTask)
    (hi : 0 < t.interval) (he : 0 < t.effInterval)
    (hc : 0 < cfg.intervalCeiling) :
    0 < (executeTask env cfg now st t).1.effInterval := by
  cases h : env t.symbol t.dataKind with
  | ok batch =>
      cases ho : (put st t.symbol t.dataKind batch
          (validate batch ((st t.symbol t.dataKind).getD []))).outcome <;>
        simp only [executeTask, h, ho] <;> omega
  | err e =>
      cases e with
      | sourceUnavailable =>
          simp only [executeTask, h, applyBackoff]
          by_cases hb : cfg.backoffThreshold ≤ t.consecFailures + 1
          · rw [if_pos hb]
            exact lt_min (by omega) hc
          · rw [if_neg hb]
            exact he
      | symbolNotFound =>
          simpa [executeTask, h] using he

/-- After a scheduling pass, every task in the registry — executed or not —
has a next-due time strictly after `now`. -/
theorem runTasks_not_due_after (env : Adapter) (cfg : ManagerConfig)
    (now : Nat) (ts : List CollectionTask) (st : Store)
    (hpos : ∀ t ∈ ts, 0 < t.interval ∧ 0 < t.effInterval)
    (hc : 0 < cfg.intervalCeiling) :
    ∀ t' ∈ (runTasks env cfg now ts st).1, now < t'.nextDue := by
  induction ts generalizing st with
  | nil => simp [runTasks]
  | cons t ts ih =>
      intro t' ht'
      by_cases hd : isDue t now = true
      · simp only [runTasks, hd, if_pos] at ht'
        rcases List.mem_cons.mp ht' with rfl | hmem
        · exact executeTask_nextDue_pos env cfg now st t
            (hpos t (List.mem_cons_self t ts)).1
            (hpos t (List.mem_cons_self t ts)).2 hc
        · exact ih _ (fun u hu => hpos u (List.mem_cons_of_mem _ hu)) t' hmem
      · simp only [runTasks, hd, if_neg, Bool.false_eq_true,
          not_false_eq_true] at ht'
        rcases List.mem_cons.mp ht' with rfl | hmem
        · have : ¬ (t'.nextDue ≤ now) := by simpa [isDue] using hd
          omega
        · exact ih _ (fun u hu => hpos u (List.mem_cons_of_mem _ hu)) t' hmem

/-- A scheduling pass in which no task is due does nothing: same registry,
same store, empty report. -/
theorem runTasks_none_due (env : Adapter) (cfg : ManagerConfig) (now : Nat)
    (ts : List CollectionTask) (st : Store)
    (h : ∀ t ∈ ts, isDue t now = false) :
    runTasks env cfg now ts st = (ts, st, []) := by
  induction ts generalizing st with
  | nil => simp [runTasks]
  | cons t ts ih =>
      have hd : isDue t now = false := h t (List.mem_cons_self t ts)
      simp [runTasks, hd, ih st (fun u hu => h u (List.mem_cons_of_mem _ hu))]

/-- Every due task of a scheduling pass contributes a report entry under
its own symbol and data kind. -/
theorem runTasks_entry_of_due (env : Adapter) (cfg : ManagerConfig)
    (now : Nat) (ts : List CollectionTask) (st : Store)
    (t : CollectionTask) (ht : t ∈ ts) (hd : isDue t now = true) :
    ∃ e ∈ (runTasks env cfg now ts st).2.2,
      e.symbol = t.symbol ∧ e.dataKind = t.dataKind := by
  induction ts generalizing st with
  | nil => cases ht
  | cons u ts ih =>
      rcases List.mem_cons.mp ht with rfl | hmem
      · refine ⟨(executeTask env cfg now st t).2.2, ?_, executeTask_entry _ _ _ _ _⟩
        simp [runTasks, hd]
      · by_cases hdu : isDue u now = true
        · rcases ih ((executeTask env cfg now st u).2.1) hmem with ⟨e, he, hee⟩
          exact ⟨e, by simp [runTasks, hdu]; exact Or.inr he, hee⟩
        · rcases ih st hmem with ⟨e, he, hee⟩
          refine ⟨e, ?_, hee⟩
          simpa [runTasks, hdu] using he

/-! ### C2 -/

/-- Claim C2: a task with interval 24 whose last run was 25 hours before
`now` (so its next-due, last run + interval, has passed) is selected by
`run_due_tasks(now)`, and an immediately repeated call with the same `now`
selects nothing and changes nothing, because every executed task's
next-due was advanced past `now` (positive intervals assumed for every
registered task). -/
theorem c2_run_due_tasks_then_idle (env : Adapter) (s : ManagerState)
    (t0 : CollectionTask) (lr now : Nat)
    (hpos : ∀ t ∈ s.tasks, 0 < t.interval ∧ 0 < t.effInterval)
    (hceil : 0 < s.config.intervalCeiling)
    (ht : t0 ∈ s.tasks)
    (hint : t0.interval = 24)
    (hlast : t0.lastRun = some lr)
    (hnow : now = lr + 25)
    (hdue : t0.nextDue = lr + t0.interval) :
    isDue t0 now = true ∧
    (∃ e ∈ (runDueTasks env s now).2,
      e.symbol = t0.symbol ∧ e.dataKind = t0.dataKind) ∧
    (runDueTasks env (runDueTasks env s now).1 now).2 = [] ∧
    (runDueTasks env (runDueTasks env s now).1 now).1 =
      (runDueTasks env s now).1 := by
  have hd : isDue t0 now = true := by
    simp only [isDue, hdue, hint, hnow, decide_eq_true_eq]
    omega
  have hafter : ∀ t' ∈ (runTasks env s.config now s.tasks s.store).1,
      now < t'.nextDue :=
    runTasks_not_due_after env s.config now s.tasks s.store hpos hceil
  have hnone : ∀ t' ∈ (runTasks env s.config now s.tasks s.store).1,
      isDue t' now = false := by
    intro t' ht'
    have := hafter t' ht'
    simp only [isDue, decide_eq_false_iff_not]
    omega
  have hsecond := runTasks_none_due env s.config now
    (runTasks env s.config now s.tasks s.store).1
    (runTasks env s.config now s.tasks s.store).2.1 hnone
  refine ⟨hd, ?_, ?_, ?_⟩
  · simpa [runDueTasks] using
      runTasks_entry_of_due env s.config now s.tasks s.store t0 ht hd
  · simp [runDueTasks, hsecond]
  · simp [runDueTasks, hsecond]

/-- Witness for C2: a single-task registry, interval 24, last run at time
0, now 25. -/
theorem c2_run_due_tasks_then_idle_witness :
    let t0 : CollectionTask :=
      { symbol := "AAPL", dataKind := DataKind.prices, interval := 24,
        effInterval := 24, lastRun := some 0, nextDue := 24,
        lastOutcome := none, consecFailures := 0 }
    let s : ManagerState :=
      { config := { backoffThreshold := 3, intervalCeiling := 96 },
        tasks := [t0], store := Store.empty }
    let env : Adapter := fun _ _ => FetchResult.ok []
    isDue t0 25 = true ∧
    (∃ e ∈ (runDueTasks env s 25).2,
      e.symbol = t0.symbol ∧ e.dataKind = t0.dataKind) ∧
    (runDueTasks env (runDueTasks env s 25).1 25).2 = [] ∧
    (runDueTasks env (runDueTasks env s 25).1 25).1 =
      (runDueTasks env s 25).1 :=
  c2_run_due_tasks_then_idle _ _ _ 0 25 (by decide) (by decide)
    (by decide) rfl rfl rfl rfl

/-! ### C6 -/

/-- A scheduling pass over a concatenation is the pass over the first part
followed by the pass over the second part from the intermediate store. -/
theorem runTasks_append (env : Adapter) (cfg : ManagerConfig) (now : Nat)
    (l1 l2 : List CollectionTask) (st : Store) :
    runTasks env cfg now (l1 ++ l2) st =
      ((runTasks env cfg now l1 st).1 ++
        (runTasks env cfg now l2 (runTasks env cfg now l1 st).2.1).1,
       (runTasks env cfg now l2 (runTasks env cfg now l1 st).2.1).2.1,
       (runTasks env cfg now l1 st).2.2 ++
        (runTasks env cfg now l2 (runTasks env cfg now l1 st).2.1).2.2) := by
  induction l1 generalizing st with
  | nil => simp [runTasks]
  | cons t l1 ih =>
      by_cases hd : isDue t now = true
      · simp [runTasks, hd, ih]
      · simp [runTasks, hd, ih]

/-- Executing a task whose adapter reports `SourceUnavailable` leaves the
store untouched and yields a hard-failure report entry. -/
theorem executeTask_unavailable_store (env : Adapter) (cfg : ManagerConfig)
    (now : Nat) (st : Store) (t : CollectionTask)
    (henv : env t.symbol t.dataKind =
      FetchResult.err AdapterError.sourceUnavailable) :
    (executeTask env cfg now st t).2.1 = st ∧
    (executeTask env cfg now st t).2.2 =
      { symbol := t.symbol, dataKind := t.dataKind,
        outcome := RunOutcome.failedAdapter AdapterError.sourceUnavailable,
        findings := [] } := by
  simp [executeTask, henv]

/-- Claim C6: a due task whose adapter raises `SourceUnavailable` never
prevents the other due tasks of the same `run_due_tasks` pass from
executing and committing: the final store, and every other task's report
entry, are exactly what they would have been had the failing task not been
in the registry, and the failing task's adapter error is captured as its
own report entry instead of propagating. -/
theorem c6_failure_isolation (env : Adapter) (cfg : ManagerConfig)
    (now : Nat) (l1 l2 : List CollectionTask) (t : CollectionTask)
    (st : Store)
    (henv : env t.symbol t.dataKind =
      FetchResult.err AdapterError.sourceUnavailable)
    (hdue : isDue t now = true) :
    (runTasks env cfg now (l1 ++ t :: l2) st).2.1 =
      (runTasks env cfg now (l1 ++ l2) st).2.1 ∧
    (runTasks env cfg now (l1 ++ t :: l2) st).2.2 =
      (runTasks env cfg now l1 st).2.2 ++
        ({ symbol := t.symbol, dataKind := t.dataKind,
           outcome := RunOutcome.failedAdapter AdapterError.sourceUnavailable,
           findings := [] } : ReportEntry) ::
        (runTasks env cfg now l2 (runTasks env cfg now l1 st).2.1).2.2 ∧
    (runTasks env cfg now (l1 ++ l2) st).2.2 =
      (runTasks env cfg now l1 st).2.2 ++
        (runTasks env cfg now l2 (runTasks env cfg now l1 st).2.1).2.2 ∧
    (runTasks env cfg now (l1 ++ t :: l2) st).1 =
      (runTasks env cfg now l1 st).1 ++
        (executeTask env cfg now (runTasks env cfg now l1 st).2.1 t).1 ::
        (runTasks env cfg now l2 (runTasks env cfg now l1 st).2.1).1 ∧
    (runTasks env cfg now (l1 ++ l2) st).1 =
      (runTasks env cfg now l1 st).1 ++
        (runTasks env cfg now l2 (runTasks env cfg now l1 st).2.1).1 := by
  have hmid := executeTask_unavailable_store env cfg now
    (runTasks env cfg now l1 st).2.1 t henv
  have hcons : runTasks env cfg now (t :: l2)
      (runTasks env cfg now l1 st).2.1 =
      ((executeTask env cfg now (runTasks env cfg now l1 st).2.1 t).1 ::
        (runTasks env cfg now l2 (runTasks env cfg now l1 st).2.1).1,
       (runTasks env cfg now l2 (runTasks env cfg now l1 st).2.1).2.1,
       ({ symbol := t.symbol, dataKind := t.dataKind,
          outcome := RunOutcome.failedAdapter AdapterError.sourceUnavailable,
          findings := [] } : ReportEntry) ::
        (runTasks env cfg now l2 (runTasks env cfg now l1 st).2.1).2.2) := by
    simp only [runTasks, hdue, if_pos]
    rw [hmid.1, hmid.2]
  rw [runTasks_append env cfg now l1 (t :: l2) st,
    runTasks_append env cfg now l1 l2 st, hcons]
  exact ⟨rfl, rfl, rfl, rfl, rfl⟩

/-- Witness for C6: one failing task between two succeeding ones. -/
theorem c6_failure_isolation_witness :
    let tGood1 := freshTask "AAPL" DataKind.prices 24 0
    let tBad := freshTask "FAIL" DataKind.prices 24 0
    let tGood2 := freshTask "MSFT" DataKind.prices 24 0
    let cfg : ManagerConfig := { backoffThreshold := 3, intervalCeiling := 96 }
    let env : Adapter := fun sym _ =>
      if sym = "FAIL" then FetchResult.err AdapterError.sourceUnavailable
      else FetchResult.ok []
    (runTasks env cfg 1 ([tGood1] ++ tBad :: [tGood2]) Store.empty).2.1 =
      (runTasks env cfg 1 ([tGood1] ++ [tGood2]) Store.empty).2.1 ∧
    (runTasks env cfg 1 ([tGood1] ++ tBad :: [tGood2]) Store.empty).2.2 =
      (runTasks env cfg 1 [tGood1] Store.empty).2.2 ++
        ({ symbol := tBad.symbol, dataKind := tBad.dataKind,
           outcome := RunOutcome.failedAdapter AdapterError.sourceUnavailable,
           findings := [] } : ReportEntry) ::
        (runTasks env cfg 1 [tGood2]
          (runTasks env cfg 1 [tGood1] Store.empty).2.1).2.2 ∧
    (runTasks env cfg 1 ([tGood1] ++ [tGood2]) Store.empty).2.2 =
      (runTasks env cfg 1 [tGood1] Store.empty).2.2 ++
        (runTasks env cfg 1 [tGood2]
          (runTasks env cfg 1 [tGood1] Store.empty).2.1).2.2 ∧
    (runTasks env cfg 1 ([tGood1] ++ tBad :: [tGood2]) Store.empty).1 =
      (runTasks env cfg 1 [tGood1] Store.empty).1 ++
        (executeTask env cfg 1
          (runTasks env cfg 1 [tGood1] Store.empty).2.1 tBad).1 ::
        (runTasks env cfg 1 [tGood2]
          (runTasks env cfg 1 [tGood1] Store.empty).2.1).1 ∧
    (runTasks env cfg 1 ([tGood1] ++ [tGood2]) Store.empty).1 =
      (runTasks env cfg 1 [tGood1] Store.empty).1 ++
        (runTasks env cfg 1 [tGood2]
          (runTasks env cfg 1 [tGood1] Store.empty).2.1).1 :=
  c6_failure_isolation _ _ 1 [freshTask "AAPL" DataKind.prices 24 0]
    [freshTask "MSFT" DataKind.prices 24 0] _ Store.empty rfl rfl

/-! ### Concrete instances -/

/-- Witness for C1 on a three-bar batch with one invalid bar. -/
theorem c1_validate_put_get_witness :
    let bad : StockPriceBar :=
      { symbol := "AAPL", date := 1, openPrice := 10, high := 5, low := 9,
        close := 10, volume := 100 }
    let good1 : StockPriceBar :=
      { symbol := "AAPL", date := 2, openPrice := 10, high := 12, low := 9,
        close := 11, volume := 100 }
    let good2 : StockPriceBar :=
      { symbol := "AAPL", date := 3, openPrice := 11, high := 13, low := 10,
        close := 12, volume := 100 }
    let batch := [bad, good1, good2]
    (∀ b ∈ batch, b.high < b.low →
      ∃ f ∈ validate batch [], f.ref = b ∧ f.severity = Severity.error) ∧
    (∀ b : StockPriceBar,
      (∃ l, getLatest (put Store.empty "AAPL" DataKind.prices batch
          (validate batch [])).store "AAPL" DataKind.prices =
            Except.ok l ∧ b ∈ l) ↔
      (b ∈ batch ∧ hasErrorFinding (validate batch []) b = false)) :=
  c1_validate_put_get _ "AAPL"

/-- Witness for C4 on a concrete two-bar batch over the empty store. -/
theorem c4_put_idempotent_witness :
    let b1 : StockPriceBar :=
      { symbol := "AAPL", date := 1, openPrice := 10, high := 12, low := 9,
        close := 11, volume := 100 }
    let b2 : StockPriceBar :=
      { symbol := "AAPL", date := 2, openPrice := 11, high := 13, low := 10,
        close := 12, volume := 100 }
    (put (put Store.empty "AAPL" DataKind.prices [b1, b2] []).store "AAPL"
        DataKind.prices [b1, b2] []).store =
      (put Store.empty "AAPL" DataKind.prices [b1, b2] []).store :=
  c4_put_idempotent Store.empty "AAPL" DataKind.prices _ []

/-- Witness for C10 on a concrete button mutated by an icon change and an
event registration. -/
theorem c10_to_dict_invariants_witness :
    let btn : UIComponent := UIComponent.button
      { idNum := 7, attributes := [], eventHandlers := [] }
      "Click Me" "primary" "medium" none false
    let ops := [UIOp.setIcon "fa-icon", UIOp.onEvent "click" "showDetails()"]
    (∃ n : Nat, dictLookup "id" (applyOps ops btn).toDict =
        some (JVal.jstr ("component_" ++ toString n))) ∧
    (∃ cl : List String,
        dictLookup "classes" (applyOps ops btn).toDict =
          some (JVal.jarr (cl.map JVal.jstr)) ∧
        cl.head? = some btn.kindClass) ∧
    (dictLookup "attributes" (applyOps ops btn).toDict).isSome = true ∧
    (dictLookup "eventHandlers" (applyOps ops btn).toDict).isSome = true ∧
    (dictLookup "type" (applyOps ops btn).toDict).isSome = true :=
  c10_to_dict_invariants _ _

end Tumkwe
